import Mathlib

/-!
Shallow embedding of `src/omni_content_validator/cli.py`: the issue locator
(`_extract_by_path`, `_collect_content_issues`, `_extract_issues`), the issue
normalizer (`_issue_identity`, `_issue_summary`, `_normalize_issues`) and the
history differ (`_partition_issues`), together with models of the Python
runtime pieces they use: `dict.get`, `str.split(".")`, `str.strip()`,
`json.dumps(..., sort_keys=True)` (which raises `TypeError`, modelled as
`none`, on values the json module cannot serialize), `str()` of a value, and
`hashlib.sha256(...).hexdigest()`.
-/

/-- A Python value as the validator sees one: a JSON value (null, bool, int,
string, array, object with string keys in insertion order), or a Python
object the json module cannot serialize, carried with its default `str()`
text. -/
inductive PyVal where
  | null : PyVal
  | bool : Bool → PyVal
  | int : Int → PyVal
  | str : String → PyVal
  | list : List PyVal → PyVal
  | dict : List (String × PyVal) → PyVal
  | pyobj : String → PyVal

/-- `d.get(k)` without a default: the value stored at key `k`, if present. -/
def pyGet (kvs : List (String × PyVal)) (k : String) : Option PyVal :=
  match kvs.find? (fun kv => kv.1 == k) with
  | some kv => some kv.2
  | none => none

/-- `d.get(k)` with Python's default of `None`. -/
def pyGetD (kvs : List (String × PyVal)) (k : String) : PyVal :=
  (pyGet kvs k).getD PyVal.null

/-- `path.split(".")` over the characters: every occurrence of the separator
splits, and empty pieces are kept, as in Python. -/
def splitDotAux : List Char → List (List Char)
  | [] => [[]]
  | c :: cs =>
    match splitDotAux cs with
    | r :: rs => if c = '.' then [] :: r :: rs else (c :: r) :: rs
    | [] => [[c]]

def splitDot (s : String) : List String :=
  (splitDotAux s.data).map String.mk

/-- The traversal loop of `_extract_by_path`: descend through nested dicts
along the field names; a step at a value that is not a dict containing the
field fails the whole traversal. -/
def walkPath : PyVal → List String → Option PyVal
  | current, [] => some current
  | current, part :: rest =>
    match current with
    | PyVal.dict kvs =>
      match pyGet kvs part with
      | some next => walkPath next rest
      | none => none
    | _ => none

/-- `_extract_by_path(payload, path)`: `None` for a missing or empty path
(`if not path`); otherwise traverse the dotted path and return the final
value exactly when it is a list. -/
def _extract_by_path (payload : PyVal) (path : Option String) : Option (List PyVal) :=
  match path with
  | none => none
  | some p =>
    if p = "" then none
    else
      match walkPath payload (splitDot p) with
      | some (PyVal.list l) => some l
      | _ => none

/-- The `doc_context` record built per document in `_collect_content_issues`,
with the dict-literal key order of the source. -/
def docContext (document : List (String × PyVal)) : List (String × PyVal) :=
  [("document_id", pyGetD document "document_id"),
   ("document_name", pyGetD document "name"),
   ("document_type", pyGetD document "type"),
   ("folder_name",
     match pyGet document "folder" with
     | some (PyVal.dict f) => pyGetD f "name"
     | _ => PyVal.null),
   ("folder_path",
     match pyGet document "folder" with
     | some (PyVal.dict f) => pyGetD f "path"
     | _ => PyVal.null)]

/-- `item.get("message") if isinstance(item, dict) else item`. -/
def itemMessage (item : PyVal) : PyVal :=
  match item with
  | PyVal.dict d => pyGetD d "message"
  | _ => item

/-- The issue record appended for one entry of `dashboard_filter_issues`. -/
def dashboardIssue (ctx : List (String × PyVal)) (item : PyVal) : PyVal :=
  PyVal.dict ([("message", itemMessage item), ("raw_issue", item),
    ("issue_type", PyVal.str "dashboard_filter")] ++ ctx)

/-- The issue record appended for one entry of a query's `issues`. -/
def queryIssue (ctx : List (String × PyVal)) (query : List (String × PyVal))
    (item : PyVal) : PyVal :=
  PyVal.dict ([("message", itemMessage item), ("raw_issue", item),
    ("issue_type", PyVal.str "query"),
    ("query_name", pyGetD query "query_name"),
    ("query_presentation_id", pyGetD query "query_presentation_id")] ++ ctx)

/-- The `dashboard_filter_issues` harvest of one document: skipped unless the
field holds a list. -/
def docDashboardIssues (ctx : List (String × PyVal)) (d : List (String × PyVal)) :
    List PyVal :=
  match pyGet d "dashboard_filter_issues" with
  | some (PyVal.list items) => items.map (dashboardIssue ctx)
  | _ => []

/-- The harvest of one entry of `queries_and_issues`: a non-dict query is
skipped, and its `issues` field is used only when it holds a list. -/
def collectQueryIssues (ctx : List (String × PyVal)) (query : PyVal) : List PyVal :=
  match query with
  | PyVal.dict q =>
    match pyGet q "issues" with
    | some (PyVal.list items) => items.map (queryIssue ctx q)
    | _ => []
  | _ => []

/-- The `queries_and_issues` harvest of one document: skipped unless the
field holds a list (the source's `continue`). -/
def docQueryIssues (ctx : List (String × PyVal)) (d : List (String × PyVal)) :
    List PyVal :=
  match pyGet d "queries_and_issues" with
  | some (PyVal.list queries) => queries.flatMap (collectQueryIssues ctx)
  | _ => []

/-- One document of the `content` list: its dashboard-filter issues then its
query issues; a non-dict document contributes nothing. -/
def collectDocIssues (document : PyVal) : List PyVal :=
  match document with
  | PyVal.dict d => docDashboardIssues (docContext d) d ++ docQueryIssues (docContext d) d
  | _ => []

/-- `_collect_content_issues(payload)`: the accumulated issue records over the
`content` list, or `[]` when `content` is missing or not a list. -/
def _collect_content_issues (payload : List (String × PyVal)) : List PyVal :=
  match pyGet payload "content" with
  | some (PyVal.list content) => content.flatMap collectDocIssues
  | _ => []

/-- The source's `for key in (...)` loops: the value of the first key that
holds a list. -/
def firstListOfKeys (kvs : List (String × PyVal)) : List String → Option (List PyVal)
  | [] => none
  | k :: rest =>
    match pyGet kvs k with
    | some (PyVal.list value) => some value
    | _ => firstListOfKeys kvs rest

/-- `_extract_issues(payload, issues_path)`: the full resolution cascade of
the issue locator. -/
def _extract_issues (payload : PyVal) (issues_path : Option String) : List PyVal :=
  match _extract_by_path payload issues_path with
  | some by_path => by_path
  | none =>
    match payload with
    | PyVal.list l => l
    | PyVal.dict kvs =>
      match firstListOfKeys kvs ["issues", "validation_issues", "errors"] with
      | some value => value
      | none =>
        let collected :=
          match pyGet kvs "content" with
          | some _ => _collect_content_issues kvs
          | none => []
        if collected.isEmpty then
          match firstListOfKeys kvs ["content", "documents", "items", "results"] with
          | some value => value
          | none => []
        else collected
    | _ => []

/-- Python string comparison, lexicographic on Unicode code points. -/
def charListLe : List Char → List Char → Bool
  | [], _ => true
  | _ :: _, [] => false
  | a :: as, b :: bs =>
    if a.toNat < b.toNat then true
    else if b.toNat < a.toNat then false
    else charListLe as bs

def pyStrLe (s t : String) : Bool := charListLe s.data t.data

/-- Stable ordered insertion of a serialized dict entry by key. -/
def insertPairByKey (a : String × String) :
    List (String × String) → List (String × String)
  | [] => [a]
  | b :: l => if pyStrLe a.1 b.1 then a :: b :: l else b :: insertPairByKey a l

/-- `sorted(items)` by key, stable, as `json.dumps(..., sort_keys=True)`
orders a dict's entries. -/
def sortPairsByKey : List (String × String) → List (String × String)
  | [] => []
  | a :: l => insertPairByKey a (sortPairsByKey l)

def hexDigit (n : Nat) : Char :=
  Char.ofNat (if n < 10 then 48 + n else 87 + n)

def hex2 (n : Nat) : String :=
  String.mk [hexDigit (n / 16 % 16), hexDigit (n % 16)]

def hex4 (n : Nat) : String :=
  String.mk [hexDigit (n / 4096 % 16), hexDigit (n / 256 % 16),
    hexDigit (n / 16 % 16), hexDigit (n % 16)]

/-- `json.dumps` escaping of one character (default `ensure_ascii=True`):
printable ASCII other than quote and backslash stays, everything else is
escaped. -/
def jsonEscapeChar (c : Char) : String :=
  if c = '"' then "\\\""
  else if c = '\\' then "\\\\"
  else if c = '\n' then "\\n"
  else if c = '\r' then "\\r"
  else if c = '\t' then "\\t"
  else if c.toNat = 8 then "\\b"
  else if c.toNat = 12 then "\\f"
  else if 32 ≤ c.toNat ∧ c.toNat ≤ 126 then String.singleton c
  else if c.toNat < 65536 then "\\u" ++ hex4 c.toNat
  else
    "\\u" ++ hex4 (55296 + (c.toNat - 65536) / 1024) ++
      "\\u" ++ hex4 (56320 + (c.toNat - 65536) % 1024)

def jsonQuote (s : String) : String :=
  "\"" ++ String.join (s.data.map jsonEscapeChar) ++ "\""

mutual
/-- `json.dumps(v, sort_keys=True, separators=(isep, ksep))`: `none` models
the `TypeError` the json module raises on a non-serializable value. -/
def dumpsVal (isep ksep : String) : PyVal → Option String
  | PyVal.null => some "null"
  | PyVal.bool b => some (if b then "true" else "false")
  | PyVal.int i => some (toString i)
  | PyVal.str s => some (jsonQuote s)
  | PyVal.list xs =>
    match dumpsElems isep ksep xs with
    | some parts => some ("[" ++ String.intercalate isep parts ++ "]")
    | none => none
  | PyVal.dict kvs =>
    match dumpsEntries isep ksep kvs with
    | some pairs =>
      some ("\x7b" ++
        String.intercalate isep
          ((sortPairsByKey pairs).map (fun kv => jsonQuote kv.1 ++ ksep ++ kv.2)) ++
        "\x7d")
    | none => none
  | PyVal.pyobj _ => none

def dumpsElems (isep ksep : String) : List PyVal → Option (List String)
  | [] => some []
  | x :: xs =>
    match dumpsVal isep ksep x, dumpsElems isep ksep xs with
    | some s, some rest => some (s :: rest)
    | _, _ => none

def dumpsEntries (isep ksep : String) :
    List (String × PyVal) → Option (List (String × String))
  | [] => some []
  | (k, v) :: kvs =>
    match dumpsVal isep ksep v, dumpsEntries isep ksep kvs with
    | some s, some rest => some ((k, s) :: rest)
    | _, _ => none
end

/-- Python `repr` escaping of one character inside quote character `q`. -/
def pyReprCharIn (q : Char) (c : Char) : String :=
  if c = '\\' then "\\\\"
  else if c = q then "\\" ++ String.singleton q
  else if c = '\n' then "\\n"
  else if c = '\r' then "\\r"
  else if c = '\t' then "\\t"
  else if c.toNat < 32 ∨ c.toNat = 127 then "\\x" ++ hex2 c.toNat
  else String.singleton c

/-- Python `repr` of a str: single-quoted, unless the text holds a single
quote and no double quote. -/
def pyReprStr (s : String) : String :=
  let q := if s.data.contains (Char.ofNat 39) ∧ ¬ s.data.contains '"' then '"'
    else Char.ofNat 39
  String.singleton q ++ String.join (s.data.map (pyReprCharIn q)) ++ String.singleton q

mutual
/-- Python `repr` of a value, as `str()` renders containers. -/
def pyRepr : PyVal → String
  | PyVal.null => "None"
  | PyVal.bool b => if b then "True" else "False"
  | PyVal.int i => toString i
  | PyVal.str s => pyReprStr s
  | PyVal.list xs => "[" ++ String.intercalate ", " (pyReprElems xs) ++ "]"
  | PyVal.dict kvs => "\x7b" ++ String.intercalate ", " (pyReprEntries kvs) ++ "\x7d"
  | PyVal.pyobj s => s

def pyReprElems : List PyVal → List String
  | [] => []
  | x :: xs => pyRepr x :: pyReprElems xs

def pyReprEntries : List (String × PyVal) → List String
  | [] => []
  | (k, v) :: kvs => (pyReprStr k ++ ": " ++ pyRepr v) :: pyReprEntries kvs
end

/-- Python `str()` of a value: the string itself for a str, `repr` otherwise. -/
def pyStr (v : PyVal) : String :=
  match v with
  | PyVal.str s => s
  | v => pyRepr v

/-- UTF-8 encoding of one character. -/
def utf8Bytes (c : Char) : List Nat :=
  let n := c.toNat
  if n < 128 then [n]
  else if n < 2048 then [192 + n / 64, 128 + n % 64]
  else if n < 65536 then [224 + n / 4096, 128 + n / 64 % 64, 128 + n % 64]
  else [240 + n / 262144, 128 + n / 4096 % 64, 128 + n / 64 % 64, 128 + n % 64]

/-- `value.encode("utf-8")`. -/
def utf8Encode (s : String) : List Nat := s.data.flatMap utf8Bytes

def w32 (n : Nat) : Nat := n % 4294967296

def rotr (k n : Nat) : Nat := w32 ((n >>> k) ||| (n <<< (32 - k)))

def bigS0 (x : Nat) : Nat := (rotr 2 x) ^^^ (rotr 13 x) ^^^ (rotr 22 x)

def bigS1 (x : Nat) : Nat := (rotr 6 x) ^^^ (rotr 11 x) ^^^ (rotr 25 x)

def smallS0 (x : Nat) : Nat := (rotr 7 x) ^^^ (rotr 18 x) ^^^ (x >>> 3)

def smallS1 (x : Nat) : Nat := (rotr 17 x) ^^^ (rotr 19 x) ^^^ (x >>> 10)

def shaCh (x y z : Nat) : Nat := (x &&& y) ^^^ ((x ^^^ 4294967295) &&& z)

def shaMaj (x y z : Nat) : Nat := (x &&& y) ^^^ (x &&& z) ^^^ (y &&& z)

def shaK : List Nat :=
  [1116352408, 1899447441, 3049323471, 3921009573, 961987163, 1508970993,
   2453635748, 2870763221, 3624381080, 310598401, 607225278, 1426881987,
   1925078388, 2162078206, 2614888103, 3248222580, 3835390401, 4022224774,
   264347078, 604807628, 770255983, 1249150122, 1555081692, 1996064986,
   2554220882, 2821834349, 2952996808, 3210313671, 3336571891, 3584528711,
   113926993, 338241895, 666307205, 773529912, 1294757372, 1396182291,
   1695183700, 1986661051, 2177026350, 2456956037, 2730485921, 2820302411,
   3259730800, 3345764771, 3516065817, 3600352804, 4094571909, 275423344,
   430227734, 506948616, 659060556, 883997877, 958139571, 1322822218,
   1537002063, 1747873779, 1955562222, 2024104815, 2227730452, 2361852424,
   2428436474, 2756734187, 3204031479, 3329325298]

def shaH0 : List Nat :=
  [1779033703, 3144134277, 1013904242, 2773480762,
   1359893119, 2600822924, 528734635, 1541459225]

/-- Big-endian bytes of `value`, `count` of them. -/
def beBytes (count value : Nat) : List Nat :=
  (List.range count).map (fun i => (value >>> (8 * (count - 1 - i))) % 256)

/-- SHA-256 padding: a 0x80 byte, zeros to 56 mod 64, the bit length. -/
def shaPad (msg : List Nat) : List Nat :=
  msg ++ 128 :: (List.replicate ((55 + 64 - msg.length % 64) % 64) 0 ++
    beBytes 8 (8 * msg.length))

def chunks64Aux : Nat → List Nat → List (List Nat)
  | 0, _ => []
  | _, [] => []
  | fuel + 1, x :: xs => (x :: xs).take 64 :: chunks64Aux fuel ((x :: xs).drop 64)

/-- The padded message split into 64-byte blocks. -/
def chunks64 (l : List Nat) : List (List Nat) := chunks64Aux l.length l

def beWord : List Nat → Nat
  | [a, b, c, d] => ((a * 256 + b) * 256 + c) * 256 + d
  | _ => 0

def blockWords (block : List Nat) : List Nat :=
  (List.range 16).map (fun i => beWord ((block.drop (4 * i)).take 4))

def shaExtend (ws : Array Nat) (i : Nat) : Array Nat :=
  ws.push (w32 (ws.getD (i - 16) 0 + smallS0 (ws.getD (i - 15) 0) +
    ws.getD (i - 7) 0 + smallS1 (ws.getD (i - 2) 0)))

/-- The 64-word message schedule of one block. -/
def shaSchedule (block : List Nat) : List Nat :=
  ((List.range 48).foldl (fun ws j => shaExtend ws (j + 16))
    (blockWords block).toArray).toList

structure ShaState where
  a : Nat
  b : Nat
  c : Nat
  d : Nat
  e : Nat
  f : Nat
  g : Nat
  h : Nat

def shaRound (st : ShaState) (kw : Nat × Nat) : ShaState :=
  let t1 := w32 (st.h + bigS1 st.e + shaCh st.e st.f st.g + kw.1 + kw.2)
  let t2 := w32 (bigS0 st.a + shaMaj st.a st.b st.c)
  ⟨w32 (t1 + t2), st.a, st.b, st.c, w32 (st.d + t1), st.e, st.f, st.g⟩

def shaCompress (hs : List Nat) (block : List Nat) : List Nat :=
  let st0 : ShaState := ⟨hs.getD 0 0, hs.getD 1 0, hs.getD 2 0, hs.getD 3 0,
    hs.getD 4 0, hs.getD 5 0, hs.getD 6 0, hs.getD 7 0⟩
  let st := (shaK.zip (shaSchedule block)).foldl shaRound st0
  [w32 (hs.getD 0 0 + st.a), w32 (hs.getD 1 0 + st.b), w32 (hs.getD 2 0 + st.c),
   w32 (hs.getD 3 0 + st.d), w32 (hs.getD 4 0 + st.e), w32 (hs.getD 5 0 + st.f),
   w32 (hs.getD 6 0 + st.g), w32 (hs.getD 7 0 + st.h)]

def hex8 (n : Nat) : String := hex4 (n / 65536) ++ hex4 (n % 65536)

/-- `hashlib.sha256(s.encode("utf-8")).hexdigest()`. -/
def sha256hex (s : String) : String :=
  String.join (((chunks64 (shaPad (utf8Encode s))).foldl shaCompress shaH0).map hex8)

/-- The identity input of `_issue_identity`: the string itself for a str;
otherwise `json.dumps(issue, sort_keys=True, separators=(",", ":"))`, falling
back to `str(issue)` on the `TypeError` of a non-serializable value. -/
def identityInput (issue : PyVal) : String :=
  match issue with
  | PyVal.str s => s
  | _ =>
    match dumpsVal "," ":" issue with
    | some value => value
    | none => pyStr issue

/-- `_issue_identity(issue)`. -/
def _issue_identity (issue : PyVal) : String :=
  sha256hex (identityInput issue)

/-- Python `str.isspace()` for one character: the characters `str.strip()`
removes. These are tab through carriage return (9-13), the file, group,
record and unit separators (28-31), space, NEL (133), no-break space (160),
the Ogham space mark (5760), the Unicode spaces 8192-8202, the line and
paragraph separators (8232, 8233), the narrow no-break space (8239), the
medium mathematical space (8287) and the ideographic space (12288). -/
def pyIsSpace (c : Char) : Bool :=
  let n := c.toNat
  decide ((9 ≤ n ∧ n ≤ 13) ∨ (28 ≤ n ∧ n ≤ 32) ∨ n = 133 ∨ n = 160 ∨
    n = 5760 ∨ (8192 ≤ n ∧ n ≤ 8202) ∨ n = 8232 ∨ n = 8233 ∨ n = 8239 ∨
    n = 8287 ∨ n = 12288)

/-- `s.strip()`: leading and trailing Python whitespace removed. -/
def pyStrip (s : String) : String :=
  String.mk (((s.data.dropWhile pyIsSpace).reverse.dropWhile pyIsSpace).reverse)

/-- The `message` of `_issue_summary` after coercion: `None` stays absent, a
str stays itself, any other value becomes `str(message)`. -/
def messageString (kvs : List (String × PyVal)) : Option String :=
  match pyGetD kvs "message" with
  | PyVal.null => none
  | PyVal.str s => some s
  | v => some (pyStr v)

/-- The `" / "`-joined prefix built from the stripped non-blank
`document_name` then `query_name` string fields. -/
def summaryPfx (kvs : List (String × PyVal)) : String :=
  let parts :=
    (match pyGetD kvs "document_name" with
     | PyVal.str s => if pyStrip s = "" then [] else [pyStrip s]
     | _ => []) ++
    (match pyGetD kvs "query_name" with
     | PyVal.str s => if pyStrip s = "" then [] else [pyStrip s]
     | _ => [])
  String.intercalate " / " parts

/-- The `for key in ("title", "name", "path", "field")` loop: the first value
that is a str with non-blank content, returned unstripped. -/
def summaryFallbackKeys (kvs : List (String × PyVal)) : List String → Option String
  | [] => none
  | k :: rest =>
    match pyGet kvs k with
    | some (PyVal.str s) =>
      if pyStrip s = "" then summaryFallbackKeys kvs rest else some s
    | _ => summaryFallbackKeys kvs rest

/-- `_issue_summary(issue)`: `none` models the uncaught `TypeError` of
`json.dumps(issue, sort_keys=True)` in the final fallback. -/
def _issue_summary (issue : PyVal) : Option String :=
  match issue with
  | PyVal.str s => some s
  | PyVal.dict kvs =>
    let fallback :=
      match summaryFallbackKeys kvs ["title", "name", "path", "field"] with
      | some value => some value
      | none => dumpsVal ", " ": " (PyVal.dict kvs)
    match messageString kvs with
    | some m =>
      if pyStrip m = "" then fallback
      else
        let pfx := summaryPfx kvs
        some (if pfx = "" then m else pfx ++ ": " ++ m)
    | none => fallback
  | v => some (pyStr v)

/-- A normalized issue: the `{"id", "summary", "raw"}` record of
`_normalize_issues`. -/
structure NormalizedIssue where
  id : String
  summary : String
  raw : PyVal

/-- `_normalize_issues(issues)`: one record per raw issue, in order; `none`
models the propagated exception when a summary derivation raises. -/
def _normalize_issues : List PyVal → Option (List NormalizedIssue)
  | [] => some []
  | issue :: rest =>
    match _issue_summary issue with
    | none => none
    | some s =>
      match _normalize_issues rest with
      | none => none
      | some ns => some (⟨_issue_identity issue, s, issue⟩ :: ns)

/-- `_partition_issues(current, previous)`: `(new, existing, resolved)` by
membership of each item's id in the other run's id set. -/
def _partition_issues (current previous : List NormalizedIssue) :
    List NormalizedIssue × List NormalizedIssue × List NormalizedIssue :=
  let previous_ids := previous.map NormalizedIssue.id
  let current_ids := current.map NormalizedIssue.id
  let new_items := current.filter (fun item => !previous_ids.contains item.id)
  let existing_items := current.filter (fun item => previous_ids.contains item.id)
  let resolved_items := previous.filter (fun item => !current_ids.contains item.id)
  (new_items, existing_items, resolved_items)

/-- The value at a top-level key of an object, exactly when that value is a
sequence. -/
def getListValue (kvs : List (String × PyVal)) (k : String) : Option (List PyVal) :=
  match pyGet kvs k with
  | some (PyVal.list l) => some l
  | _ => none

/-- Follows the claim's words for resolution rules 4 and 6: the value of the
first of the keys, in priority order, whose value is a sequence. -/
def firstSeqOfKeys (kvs : List (String × PyVal)) : List String → Option (List PyVal)
  | [] => none
  | k :: rest =>
    match getListValue kvs k with
    | some l => some l
    | none => firstSeqOfKeys kvs rest

/-- Follows the claim's words for an object payload where no explicit path
matched: rule 4 (`issues`, `validation_issues`, `errors` in priority order),
rule 5 (document-tree extraction when a key `content` holds a sequence,
kept only when it yields at least one issue), rule 6 (`content`,
`documents`, `items`, `results` in priority order), rule 7 (empty). -/
def specObjectLocate (kvs : List (String × PyVal)) : List PyVal :=
  match firstSeqOfKeys kvs ["issues", "validation_issues", "errors"] with
  | some l => l
  | none =>
    let fromTree :=
      match getListValue kvs "content" with
      | some _ => _collect_content_issues kvs
      | none => []
    if fromTree.isEmpty then
      match firstSeqOfKeys kvs ["content", "documents", "items", "results"] with
      | some l => l
      | none => []
    else fromTree

/-- Follows the amended claim's words: the prefix parts are the stripped
non-blank `document_name` then `query_name` string fields. -/
def specPfxParts (kvs : List (String × PyVal)) : List String :=
  (match pyGetD kvs "document_name" with
   | PyVal.str s => if pyStrip s = "" then [] else [pyStrip s]
   | _ => []) ++
  (match pyGetD kvs "query_name" with
   | PyVal.str s => if pyStrip s = "" then [] else [pyStrip s]
   | _ => [])

/-- Follows the amended claim's words: `"<prefix>: <message>"`, with the
prefix the " / "-join of the prefix parts, both prefix and separator omitted
when no parts exist. -/
def specMessageSummary (kvs : List (String × PyVal)) (m : String) : String :=
  let pfx := String.intercalate " / " (specPfxParts kvs)
  if pfx = "" then m else pfx ++ ": " ++ m

/-- Scenario A payload: `{"issues": ["missing filter", "missing filter"]}`. -/
def scenarioA : PyVal :=
  PyVal.dict [("issues",
    PyVal.list [PyVal.str "missing filter", PyVal.str "missing filter"])]

/-- The normalized record of one `"missing filter"` issue. -/
def missingFilterIssue : NormalizedIssue :=
  ⟨_issue_identity (PyVal.str "missing filter"), "missing filter",
    PyVal.str "missing filter"⟩

/-- Scenario B payload:
`{"content":[{"name":"Doc1","dashboard_filter_issues":[{"message":"bad filter"}]}]}`. -/
def scenarioB : PyVal :=
  PyVal.dict [("content", PyVal.list [PyVal.dict
    [("name", PyVal.str "Doc1"),
     ("dashboard_filter_issues",
       PyVal.list [PyVal.dict [("message", PyVal.str "bad filter")]])]])]

/-- The raw issue record document-tree extraction builds in scenario B. -/
def scenarioBIssue : List (String × PyVal) :=
  [("message", PyVal.str "bad filter"),
   ("raw_issue", PyVal.dict [("message", PyVal.str "bad filter")]),
   ("issue_type", PyVal.str "dashboard_filter"),
   ("document_id", PyVal.null),
   ("document_name", PyVal.str "Doc1"),
   ("document_type", PyVal.null),
   ("folder_name", PyVal.null),
   ("folder_path", PyVal.null)]

/-- Scenario D payload: `{"data":{"problems":[]}}`. -/
def scenarioD : PyVal :=
  PyVal.dict [("data", PyVal.dict [("problems", PyVal.list [])])]

/-- An object payload exercising the key cascade: `errors` holds a list while
a `content` list is also present. -/
def cascadeSample : List (String × PyVal) :=
  [("errors", PyVal.list [PyVal.str "e1"]), ("content", PyVal.list [])]

/-- A dict the json module cannot serialize, with no usable summary field. -/
def nonserializableIssue : PyVal := PyVal.dict [("x", PyVal.pyobj "set()")]

/-- `Pairwise` key order of serialized dict entries, under Python string
comparison. -/
abbrev KeySortedB (l : List (String × String)) : Prop :=
  List.Pairwise (fun a b => pyStrLe a.1 b.1 = true) l

theorem contains_iff_mem_ids (ids : List String) (i : String) :
    ids.contains i = true ↔ i ∈ ids := by
  simp [List.contains, List.elem_iff]

/-- C10: an explicit path that is the empty string (or absent) is treated as
absent: `_extract_by_path` never attempts traversal and returns `None`, and
the locator behaves exactly as when no path is supplied. -/
theorem empty_path_treated_as_absent (p : PyVal) :
    _extract_by_path p (some "") = none ∧
    _extract_by_path p none = none ∧
    _extract_issues p (some "") = _extract_issues p none :=
  ⟨rfl, rfl, rfl⟩

/-- C10 witness: the empty-string path at a payload that also has an `issues`
list falls through to the later rules. -/
theorem empty_path_treated_as_absent_witness :
    _extract_by_path (PyVal.dict [("issues", PyVal.list [PyVal.int 1])]) (some "") = none ∧
    _extract_issues (PyVal.dict [("issues", PyVal.list [PyVal.int 1])]) (some "") =
      _extract_issues (PyVal.dict [("issues", PyVal.list [PyVal.int 1])]) none ∧
    _extract_issues (PyVal.dict [("issues", PyVal.list [PyVal.int 1])]) (some "") =
      [PyVal.int 1] := by
  have h := empty_path_treated_as_absent (PyVal.dict [("issues", PyVal.list [PyVal.int 1])])
  exact ⟨h.1, h.2.2, rfl⟩

/-- C4: when the explicit dotted path resolves to a sequence, the locator
returns exactly that sequence (even an empty one), never falling through to
a later resolution rule. -/
theorem extract_by_path_wins (payload : PyVal) (path : Option String)
    (l : List PyVal) (h : _extract_by_path payload path = some l) :
    _extract_issues payload path = l := by
  unfold _extract_issues
  rw [h]

/-- C4 witness, scenario D: `explicitPath="data.problems"` against
`{"data":{"problems":[]}}` returns the empty sequence. -/
theorem extract_by_path_wins_witness :
    _extract_by_path scenarioD (some "data.problems") = some [] ∧
    _extract_issues scenarioD (some "data.problems") = [] :=
  ⟨rfl, extract_by_path_wins scenarioD (some "data.problems") [] rfl⟩

/-- C8: scenario A: `{"issues": ["missing filter", "missing filter"]}` with
no prior history normalizes to two entries sharing one id (duplicates are
retained), the total count is 2, and both entries land in the differ's `new`
partition. -/
theorem scenarioA_duplicates_retained :
    _extract_issues scenarioA none =
      [PyVal.str "missing filter", PyVal.str "missing filter"] ∧
    _normalize_issues (_extract_issues scenarioA none) =
      some [missingFilterIssue, missingFilterIssue] ∧
    (_normalize_issues (_extract_issues scenarioA none)).map List.length = some 2 ∧
    missingFilterIssue.id = _issue_identity (PyVal.str "missing filter") ∧
    _partition_issues [missingFilterIssue, missingFilterIssue] [] =
      ([missingFilterIssue, missingFilterIssue], [], []) :=
  ⟨rfl, rfl, rfl, rfl, rfl⟩

/-- C1: `_partition_issues(current, previous)` returns exactly the filters
the claim describes, in the original order; `new` and `existing` partition
`current` with no overlap and full cover, and `resolved` is drawn from
`previous` and disjoint from both. -/
theorem partition_issues_characterization (current previous : List NormalizedIssue) :
    (_partition_issues current previous).1
      = current.filter (fun item => !(previous.map NormalizedIssue.id).contains item.id) ∧
    (_partition_issues current previous).2.1
      = current.filter (fun item => (previous.map NormalizedIssue.id).contains item.id) ∧
    (_partition_issues current previous).2.2
      = previous.filter (fun item => !(current.map NormalizedIssue.id).contains item.id) ∧
    (∀ x, x ∈ current ↔
      x ∈ (_partition_issues current previous).1 ∨
      x ∈ (_partition_issues current previous).2.1) ∧
    (∀ x, x ∈ (_partition_issues current previous).1 →
      x ∉ (_partition_issues current previous).2.1) ∧
    (∀ x, x ∈ (_partition_issues current previous).2.2 →
      x ∈ previous ∧ x ∉ (_partition_issues current previous).1 ∧
        x ∉ (_partition_issues current previous).2.1) := by
  refine ⟨rfl, rfl, rfl, ?_, ?_, ?_⟩
  · intro x
    constructor
    · intro hx
      cases hcon : (previous.map NormalizedIssue.id).contains x.id with
      | true => exact Or.inr (List.mem_filter.mpr ⟨hx, hcon⟩)
      | false => exact Or.inl (List.mem_filter.mpr ⟨hx, by rw [hcon]; rfl⟩)
    · rintro (hx | hx) <;> exact (List.mem_filter.mp hx).1
  · intro x hnew hex
    have h1 := (List.mem_filter.mp hnew).2
    have h2 := (List.mem_filter.mp hex).2
    rw [h2] at h1
    exact Bool.false_ne_true h1
  · intro x hres
    have hmem := (List.mem_filter.mp hres).1
    have hid := (List.mem_filter.mp hres).2
    have hnotc : x.id ∉ current.map NormalizedIssue.id := by
      intro hcontra
      rw [(contains_iff_mem_ids (current.map NormalizedIssue.id) x.id).mpr hcontra] at hid
      exact Bool.false_ne_true hid
    have hnotcur : ∀ y, y ∈ current → y = x → False := by
      intro y hy hyx
      exact hnotc (List.mem_map.mpr ⟨y, hy, by rw [hyx]⟩)
    refine ⟨hmem, ?_, ?_⟩
    · intro hx
      exact hnotcur x (List.mem_filter.mp hx).1 rfl
    · intro hx
      exact hnotcur x (List.mem_filter.mp hx).1 rfl

/-- C7: the locator is total and never raises: a failed explicit-path
traversal only skips rule 1 (the locator behaves exactly as with no path), a
payload that is neither a sequence nor an object yields the empty sequence,
and an object where no rule matches yields the empty sequence. -/
theorem extract_issues_total (p : PyVal) (path : Option String)
    (h : _extract_by_path p path = none) :
    _extract_issues p path = _extract_issues p none ∧
    ((∀ l, p ≠ PyVal.list l) → (∀ kvs, p ≠ PyVal.dict kvs) →
      _extract_issues p path = []) ∧
    (∀ kvs, p = PyVal.dict kvs →
      firstListOfKeys kvs ["issues", "validation_issues", "errors"] = none →
      _collect_content_issues kvs = [] →
      firstListOfKeys kvs ["content", "documents", "items", "results"] = none →
      _extract_issues p path = []) := by
  refine ⟨?_, ?_, ?_⟩
  · unfold _extract_issues
    have h0 : _extract_by_path p none = none := rfl
    rw [h, h0]
  · intro hl hd
    unfold _extract_issues
    rw [h]
    cases p with
    | list l => exact absurd rfl (hl l)
    | dict kvs => exact absurd rfl (hd kvs)
    | null => rfl
    | bool b => rfl
    | int i => rfl
    | str s => rfl
    | pyobj s => rfl
  · intro kvs hp h1 h2 h3
    subst hp
    unfold _extract_issues
    rw [h]
    show (match firstListOfKeys kvs ["issues", "validation_issues", "errors"] with
      | some value => value
      | none =>
        let collected :=
          match pyGet kvs "content" with
          | some _ => _collect_content_issues kvs
          | none => ([] : List PyVal)
        if collected.isEmpty then
          match firstListOfKeys kvs ["content", "documents", "items", "results"] with
          | some value => value
          | none => []
        else collected) = []
    have hcollected :
        (match pyGet kvs "content" with
         | some _ => _collect_content_issues kvs
         | none => ([] : List PyVal)) = [] := by
      cases pyGet kvs "content" with
      | none => rfl
      | some v => exact h2
    rw [h1, hcollected, h3]
    rfl

/-- C7 witness: a scalar payload with a non-matching path resolves to the
empty sequence, the same as with no path. -/
theorem extract_issues_total_witness :
    _extract_issues (PyVal.int 7) (some "a.b") = _extract_issues (PyVal.int 7) none ∧
    _extract_issues (PyVal.int 7) (some "a.b") = [] := by
  have h := extract_issues_total (PyVal.int 7) (some "a.b") rfl
  exact ⟨h.1, h.2.1 (fun l hl => nomatch hl) (fun kvs hk => nomatch hk)⟩

theorem firstListOfKeys_cons (kvs : List (String × PyVal)) (k : String)
    (rest : List String) :
    firstListOfKeys kvs (k :: rest) =
      match getListValue kvs k with
      | some l => some l
      | none => firstListOfKeys kvs rest := by
  show (match pyGet kvs k with
    | some (PyVal.list value) => some value
    | _ => firstListOfKeys kvs rest) =
      match getListValue kvs k with
      | some l => some l
      | none => firstListOfKeys kvs rest
  unfold getListValue
  cases pyGet kvs k with
  | none => rfl
  | some v => cases v <;> rfl

theorem firstListOfKeys_eq_firstSeqOfKeys (kvs : List (String × PyVal))
    (ks : List String) : firstListOfKeys kvs ks = firstSeqOfKeys kvs ks := by
  induction ks with
  | nil => rfl
  | cons k rest ih =>
    rw [firstListOfKeys_cons]
    unfold firstSeqOfKeys
    cases getListValue kvs k with
    | some l => rfl
    | none => exact ih

/-- C5: for an object payload where the explicit path did not match, the
locator follows exactly the claim's resolution rules 4, 5, 6 and 7, in that
order. -/
theorem extract_issues_object_cascade (kvs : List (String × PyVal))
    (path : Option String) (h : _extract_by_path (PyVal.dict kvs) path = none) :
    _extract_issues (PyVal.dict kvs) path = specObjectLocate kvs := by
  unfold _extract_issues
  rw [h]
  show (match firstListOfKeys kvs ["issues", "validation_issues", "errors"] with
    | some value => value
    | none =>
      let collected :=
        match pyGet kvs "content" with
        | some _ => _collect_content_issues kvs
        | none => ([] : List PyVal)
      if collected.isEmpty then
        match firstListOfKeys kvs ["content", "documents", "items", "results"] with
        | some value => value
        | none => []
      else collected) = specObjectLocate kvs
  unfold specObjectLocate
  rw [firstListOfKeys_eq_firstSeqOfKeys kvs ["issues", "validation_issues", "errors"],
    firstListOfKeys_eq_firstSeqOfKeys kvs ["content", "documents", "items", "results"]]
  have hc : (match pyGet kvs "content" with
      | some _ => _collect_content_issues kvs
      | none => ([] : List PyVal)) =
      (match getListValue kvs "content" with
      | some _ => _collect_content_issues kvs
      | none => ([] : List PyVal)) := by
    unfold getListValue
    cases hg : pyGet kvs "content" with
    | none => rfl
    | some v =>
      cases v with
      | list l => rfl
      | null => unfold _collect_content_issues; rw [hg]
      | bool b => unfold _collect_content_issues; rw [hg]
      | int i => unfold _collect_content_issues; rw [hg]
      | str s => unfold _collect_content_issues; rw [hg]
      | dict kk => unfold _collect_content_issues; rw [hg]
      | pyobj s => unfold _collect_content_issues; rw [hg]
  rw [hc]

/-- C5 witness: an object with both an `errors` list and a `content` list,
under a non-matching explicit path, resolves by rule 4 to the `errors`
list. -/
theorem extract_issues_object_cascade_witness :
    _extract_by_path (PyVal.dict cascadeSample) (some "missing.path") = none ∧
    _extract_issues (PyVal.dict cascadeSample) (some "missing.path") =
      specObjectLocate cascadeSample ∧
    specObjectLocate cascadeSample = [PyVal.str "e1"] :=
  ⟨rfl, extract_issues_object_cascade cascadeSample (some "missing.path") rfl, rfl⟩

/-- C9: document-tree extraction is total and lenient: a non-dict content
element or query entry is skipped and contributes nothing, and a
`dashboard_filter_issues` or `issues` field that is not a list is ignored;
extraction always continues with the remaining elements. -/
theorem collect_content_issues_lenient :
    (∀ x, (∀ d, x ≠ PyVal.dict d) → collectDocIssues x = []) ∧
    (∀ pre post x, (∀ d, x ≠ PyVal.dict d) →
      (pre ++ x :: post).flatMap collectDocIssues =
        (pre ++ post).flatMap collectDocIssues) ∧
    (∀ ctx q, (∀ d, q ≠ PyVal.dict d) → collectQueryIssues ctx q = []) ∧
    (∀ ctx pre post q, (∀ d, q ≠ PyVal.dict d) →
      (pre ++ q :: post).flatMap (collectQueryIssues ctx) =
        (pre ++ post).flatMap (collectQueryIssues ctx)) ∧
    (∀ ctx d v, pyGet d "dashboard_filter_issues" = some v →
      (∀ l, v ≠ PyVal.list l) → docDashboardIssues ctx d = []) ∧
    (∀ ctx d v, pyGet d "queries_and_issues" = some v →
      (∀ l, v ≠ PyVal.list l) → docQueryIssues ctx d = []) ∧
    (∀ ctx q v, pyGet q "issues" = some v → (∀ l, v ≠ PyVal.list l) →
      collectQueryIssues ctx (PyVal.dict q) = []) := by
  have hdoc : ∀ x, (∀ d, x ≠ PyVal.dict d) → collectDocIssues x = [] := by
    intro x hx
    cases x with
    | dict d => exact absurd rfl (hx d)
    | null => rfl
    | bool b => rfl
    | int i => rfl
    | str s => rfl
    | list l => rfl
    | pyobj s => rfl
  have hq : ∀ ctx q, (∀ d, q ≠ PyVal.dict d) → collectQueryIssues ctx q = [] := by
    intro ctx q hx
    cases q with
    | dict d => exact absurd rfl (hx d)
    | null => rfl
    | bool b => rfl
    | int i => rfl
    | str s => rfl
    | list l => rfl
    | pyobj s => rfl
  refine ⟨hdoc, ?_, hq, ?_, ?_, ?_, ?_⟩
  · intro pre post x hx
    rw [List.flatMap_append, List.flatMap_append, List.flatMap_cons, hdoc x hx,
      List.nil_append]
  · intro ctx pre post q hx
    rw [List.flatMap_append, List.flatMap_append, List.flatMap_cons, hq ctx q hx,
      List.nil_append]
  · intro ctx d v hv hnl
    unfold docDashboardIssues
    rw [hv]
    cases v with
    | list l => exact absurd rfl (hnl l)
    | null => rfl
    | bool b => rfl
    | int i => rfl
    | str s => rfl
    | dict kk => rfl
    | pyobj s => rfl
  · intro ctx d v hv hnl
    unfold docQueryIssues
    rw [hv]
    cases v with
    | list l => exact absurd rfl (hnl l)
    | null => rfl
    | bool b => rfl
    | int i => rfl
    | str s => rfl
    | dict kk => rfl
    | pyobj s => rfl
  · intro ctx q v hv hnl
    show (match pyGet q "issues" with
      | some (PyVal.list items) => List.map (queryIssue ctx q) items
      | _ => ([] : List PyVal)) = []
    rw [hv]
    cases v with
    | list l => exact absurd rfl (hnl l)
    | null => rfl
    | bool b => rfl
    | int i => rfl
    | str s => rfl
    | dict kk => rfl
    | pyobj s => rfl

/-- C9 witness: a content list mixing a non-dict document, a dict whose
`dashboard_filter_issues` is not a list, and queries of malformed shapes
extracts no issues and does not fail. -/
theorem collect_content_issues_lenient_witness :
    collectDocIssues (PyVal.str "junk") = [] ∧
    _collect_content_issues
      [("content", PyVal.list
        [PyVal.str "junk",
         PyVal.dict [("dashboard_filter_issues", PyVal.int 5)],
         PyVal.dict [("queries_and_issues", PyVal.list
           [PyVal.str "nq", PyVal.dict [("issues", PyVal.str "ni")]])]])] = [] :=
  ⟨collect_content_issues_lenient.1 (PyVal.str "junk") (fun _ hd => nomatch hd), rfl⟩

/-- C6 counterexample: at the object `{"message": " "}` the message is a
non-empty string, so the claim as stated predicts the summary `" "` (prefix
and separator omitted); the code instead treats the whitespace-only message
as absent and falls back to the sorted-key serialization of the object. -/
theorem issue_summary_blank_message_counterexample :
    _issue_summary (PyVal.dict [("message", PyVal.str " ")]) =
      some "\x7b\"message\": \" \"\x7d" ∧
    _issue_summary (PyVal.dict [("message", PyVal.str " ")]) ≠ some " " := by
  exact ⟨by decide, by decide⟩

/-- C6 (amended): for every object raw issue whose `message` field, coerced
to string, is non-blank (non-empty after stripping whitespace), the summary
is `"<prefix>: <message>"`, where the prefix is the `" / "`-joined
concatenation of the stripped non-blank `document_name` then `query_name`
string fields, and the prefix together with the `": "` separator is omitted
entirely when no prefix parts exist. -/
theorem issue_summary_message_format (kvs : List (String × PyVal)) (m : String)
    (h1 : messageString kvs = some m) (h2 : pyStrip m ≠ "") :
    _issue_summary (PyVal.dict kvs) = some (specMessageSummary kvs m) := by
  show (match messageString kvs with
    | some m2 =>
      if pyStrip m2 = "" then
        match summaryFallbackKeys kvs ["title", "name", "path", "field"] with
        | some value => some value
        | none => dumpsVal ", " ": " (PyVal.dict kvs)
      else some (if summaryPfx kvs = "" then m2 else summaryPfx kvs ++ ": " ++ m2)
    | none =>
      match summaryFallbackKeys kvs ["title", "name", "path", "field"] with
      | some value => some value
      | none => dumpsVal ", " ": " (PyVal.dict kvs)) =
    some (specMessageSummary kvs m)
  rw [h1]
  show (if pyStrip m = "" then
      (match summaryFallbackKeys kvs ["title", "name", "path", "field"] with
       | some value => some value
       | none => dumpsVal ", " ": " (PyVal.dict kvs))
    else
      some (if summaryPfx kvs = "" then m else summaryPfx kvs ++ ": " ++ m)) =
    some (specMessageSummary kvs m)
  rw [if_neg h2]
  rfl

/-- C6 witness, scenario B: the payload
`{"content":[{"name":"Doc1","dashboard_filter_issues":[{"message":"bad filter"}]}]}`
yields one normalized issue whose summary is `"Doc1: bad filter"`. -/
theorem issue_summary_message_format_witness :
    messageString scenarioBIssue = some "bad filter" ∧
    pyStrip "bad filter" ≠ "" ∧
    _issue_summary (PyVal.dict scenarioBIssue) = some "Doc1: bad filter" ∧
    _extract_issues scenarioB none = [PyVal.dict scenarioBIssue] ∧
    _normalize_issues (_extract_issues scenarioB none) =
      some [⟨_issue_identity (PyVal.dict scenarioBIssue), "Doc1: bad filter",
        PyVal.dict scenarioBIssue⟩] := by
  refine ⟨rfl, by decide, ?_, rfl, rfl⟩
  exact (issue_summary_message_format scenarioBIssue "bad filter" rfl
    (by decide)).trans (by decide)

/-- C2 counterexample: normalization is not total: at the dict
`{"x": <non-serializable object>}` the summary derivation reaches the
unguarded `json.dumps(issue, sort_keys=True)` fallback and raises (modelled
as `none`), so `_normalize_issues` fails instead of degrading. -/
theorem normalize_raises_on_nonserializable_dict :
    _issue_summary nonserializableIssue = none ∧
    _normalize_issues [nonserializableIssue] = none :=
  ⟨rfl, rfl⟩

theorem identityInput_of_dumps_none (issue : PyVal)
    (hs : ∀ s, issue ≠ PyVal.str s) (hd : dumpsVal "," ":" issue = none) :
    identityInput issue = pyStr issue := by
  cases issue with
  | str s => exact absurd rfl (hs s)
  | null => unfold identityInput; rw [hd]
  | bool b => unfold identityInput; rw [hd]
  | int i => unfold identityInput; rw [hd]
  | list xs => unfold identityInput; rw [hd]
  | dict kvs => unfold identityInput; rw [hd]
  | pyobj s => unfold identityInput; rw [hd]

theorem issue_summary_dict_eq (kvs : List (String × PyVal)) :
    _issue_summary (PyVal.dict kvs) =
      match messageString kvs with
      | some m =>
        if pyStrip m = "" then
          match summaryFallbackKeys kvs ["title", "name", "path", "field"] with
          | some value => some value
          | none => dumpsVal ", " ": " (PyVal.dict kvs)
        else some (if summaryPfx kvs = "" then m else summaryPfx kvs ++ ": " ++ m)
      | none =>
        match summaryFallbackKeys kvs ["title", "name", "path", "field"] with
        | some value => some value
        | none => dumpsVal ", " ": " (PyVal.dict kvs) := rfl

theorem summary_fallback_isSome (kvs : List (String × PyVal))
    (h : summaryFallbackKeys kvs ["title", "name", "path", "field"] = none →
      (dumpsVal ", " ": " (PyVal.dict kvs)).isSome = true) :
    (match summaryFallbackKeys kvs ["title", "name", "path", "field"] with
     | some value => some value
     | none => dumpsVal ", " ": " (PyVal.dict kvs)).isSome = true := by
  cases hf : summaryFallbackKeys kvs ["title", "name", "path", "field"] with
  | some v => rfl
  | none => exact h hf

/-- C2 (amended): normalization is total except in the one corner the code
leaves unguarded. Identity derivation always degrades a serialization
failure to `str(issue)`. Summary derivation succeeds for every raw issue
that is not a dict, for every dict whose `message` coerces to a non-blank
string, for every dict with a non-blank `title`/`name`/`path`/`field`
string, and for every dict the json module can serialize; conversely, a
summary failure forces all three ways out to be absent, so normalize raises
exactly on a non-serializable dict with no usable message and no usable
fallback key. A list of issues whose summaries all succeed normalizes to
records carrying the content-derived id and summary of each raw issue. -/
theorem normalize_total_except_summary_fallback :
    (∀ issue, (∀ s, issue ≠ PyVal.str s) → dumpsVal "," ":" issue = none →
      _issue_identity issue = sha256hex (pyStr issue)) ∧
    (∀ issue, (∀ kvs, issue ≠ PyVal.dict kvs) →
      (_issue_summary issue).isSome = true) ∧
    (∀ kvs m, messageString kvs = some m → pyStrip m ≠ "" →
      (_issue_summary (PyVal.dict kvs)).isSome = true) ∧
    (∀ kvs v, summaryFallbackKeys kvs ["title", "name", "path", "field"] = some v →
      (_issue_summary (PyVal.dict kvs)).isSome = true) ∧
    (∀ kvs, (dumpsVal ", " ": " (PyVal.dict kvs)).isSome = true →
      (_issue_summary (PyVal.dict kvs)).isSome = true) ∧
    (∀ kvs, _issue_summary (PyVal.dict kvs) = none →
      dumpsVal ", " ": " (PyVal.dict kvs) = none ∧
      summaryFallbackKeys kvs ["title", "name", "path", "field"] = none ∧
      (∀ m, messageString kvs = some m → pyStrip m = "")) ∧
    (∀ issues, (∀ issue ∈ issues, (_issue_summary issue).isSome = true) →
      ∃ ns, _normalize_issues issues = some ns ∧
        ns.map NormalizedIssue.id = issues.map _issue_identity ∧
        ns.map (fun n => some n.summary) = issues.map _issue_summary) := by
  refine ⟨?_, ?_, ?_, ?_, ?_, ?_, ?_⟩
  · intro issue hs hd
    unfold _issue_identity
    rw [identityInput_of_dumps_none issue hs hd]
  · intro issue hnd
    cases issue with
    | dict kvs => exact absurd rfl (hnd kvs)
    | null => rfl
    | bool b => rfl
    | int i => rfl
    | str s => rfl
    | list l => rfl
    | pyobj s => rfl
  · intro kvs m hm hne
    rw [issue_summary_dict_eq kvs, hm]
    show (if pyStrip m = "" then
        (match summaryFallbackKeys kvs ["title", "name", "path", "field"] with
         | some value => some value
         | none => dumpsVal ", " ": " (PyVal.dict kvs))
      else
        some (if summaryPfx kvs = "" then m
          else summaryPfx kvs ++ ": " ++ m)).isSome = true
    rw [if_neg hne]
    rfl
  · intro kvs v hv
    rw [issue_summary_dict_eq kvs]
    have hfall := summary_fallback_isSome kvs
      (fun hn => absurd (hv.symm.trans hn) (Option.some_ne_none v))
    cases messageString kvs with
    | none => exact hfall
    | some m =>
      show (if pyStrip m = "" then
          (match summaryFallbackKeys kvs ["title", "name", "path", "field"] with
           | some value => some value
           | none => dumpsVal ", " ": " (PyVal.dict kvs))
        else
          some (if summaryPfx kvs = "" then m
            else summaryPfx kvs ++ ": " ++ m)).isSome = true
      by_cases hstrip : pyStrip m = ""
      · rw [if_pos hstrip]
        exact hfall
      · rw [if_neg hstrip]
        rfl
  · intro kvs hd
    rw [issue_summary_dict_eq kvs]
    have hfall := summary_fallback_isSome kvs (fun _ => hd)
    cases messageString kvs with
    | none => exact hfall
    | some m =>
      show (if pyStrip m = "" then
          (match summaryFallbackKeys kvs ["title", "name", "path", "field"] with
           | some value => some value
           | none => dumpsVal ", " ": " (PyVal.dict kvs))
        else
          some (if summaryPfx kvs = "" then m
            else summaryPfx kvs ++ ": " ++ m)).isSome = true
      by_cases hstrip : pyStrip m = ""
      · rw [if_pos hstrip]
        exact hfall
      · rw [if_neg hstrip]
        rfl
  · intro kvs hnone
    rw [issue_summary_dict_eq kvs] at hnone
    cases hm : messageString kvs with
    | none =>
      rw [hm] at hnone
      have h2 : (match summaryFallbackKeys kvs ["title", "name", "path", "field"] with
          | some value => some value
          | none => dumpsVal ", " ": " (PyVal.dict kvs)) = none := hnone
      cases hf : summaryFallbackKeys kvs ["title", "name", "path", "field"] with
      | some v =>
        rw [hf] at h2
        exact absurd h2 (Option.some_ne_none v)
      | none =>
        rw [hf] at h2
        have h3 : dumpsVal ", " ": " (PyVal.dict kvs) = none := h2
        exact ⟨h3, rfl, fun m hm2 => Option.noConfusion hm2⟩
    | some m =>
      rw [hm] at hnone
      have h2 : (if pyStrip m = "" then
          (match summaryFallbackKeys kvs ["title", "name", "path", "field"] with
           | some value => some value
           | none => dumpsVal ", " ": " (PyVal.dict kvs))
        else
          some (if summaryPfx kvs = "" then m
            else summaryPfx kvs ++ ": " ++ m)) = none := hnone
      by_cases hstrip : pyStrip m = ""
      · rw [if_pos hstrip] at h2
        cases hf : summaryFallbackKeys kvs ["title", "name", "path", "field"] with
        | some v =>
          rw [hf] at h2
          exact absurd h2 (Option.some_ne_none v)
        | none =>
          rw [hf] at h2
          have h3 : dumpsVal ", " ": " (PyVal.dict kvs) = none := h2
          refine ⟨h3, rfl, ?_⟩
          intro m2 hm2
          have hmeq : m = m2 := Option.some.inj hm2
          rw [← hmeq]
          exact hstrip
      · rw [if_neg hstrip] at h2
        exact absurd h2 (Option.some_ne_none _)
  · intro issues
    induction issues with
    | nil => intro hall; exact ⟨[], rfl, rfl, rfl⟩
    | cons issue rest ih =>
      intro hall
      have hhead : (_issue_summary issue).isSome = true :=
        hall issue (List.mem_cons_self issue rest)
      obtain ⟨s, hs⟩ := Option.isSome_iff_exists.mp hhead
      obtain ⟨ns, hns, hid2, hsum⟩ :=
        ih (fun i hi => hall i (List.mem_cons_of_mem issue hi))
      refine ⟨⟨_issue_identity issue, s, issue⟩ :: ns, ?_, ?_, ?_⟩
      · unfold _normalize_issues
        rw [hs, hns]
      · rw [List.map_cons, List.map_cons, hid2]
      · rw [List.map_cons, List.map_cons, hsum, hs]

/-- C2 witness: the identity of a non-serializable value degrades to the
hash of its `str()` text; summaries succeed for a non-dict value, for
non-serializable dicts that carry a non-blank message or a non-blank title,
and for a serializable dict; the summary of the non-serializable dict with
neither fails with exactly the three ways out absent; and a well-formed
issue list normalizes fully. -/
theorem normalize_total_except_summary_fallback_witness :
    _issue_identity (PyVal.pyobj "set()") = sha256hex (pyStr (PyVal.pyobj "set()")) ∧
    (_issue_summary (PyVal.pyobj "set()")).isSome = true ∧
    (_issue_summary (PyVal.dict [("message", PyVal.str "m"),
      ("x", PyVal.pyobj "set()")])).isSome = true ∧
    (_issue_summary (PyVal.dict [("title", PyVal.str "T"),
      ("x", PyVal.pyobj "set()")])).isSome = true ∧
    (_issue_summary (PyVal.dict [("message", PyVal.str "m")])).isSome = true ∧
    (dumpsVal ", " ": " (PyVal.dict [("x", PyVal.pyobj "set()")]) = none ∧
      summaryFallbackKeys [("x", PyVal.pyobj "set()")]
        ["title", "name", "path", "field"] = none ∧
      (∀ m, messageString [("x", PyVal.pyobj "set()")] = some m →
        pyStrip m = "")) ∧
    (∃ ns, _normalize_issues [PyVal.str "a", PyVal.null] = some ns ∧
      ns.map NormalizedIssue.id = [PyVal.str "a", PyVal.null].map _issue_identity ∧
      ns.map (fun n => some n.summary) =
        [PyVal.str "a", PyVal.null].map _issue_summary) := by
  refine ⟨?_, ?_, ?_, ?_, ?_, ?_, ?_⟩
  · exact normalize_total_except_summary_fallback.1 (PyVal.pyobj "set()")
      (fun _ h => nomatch h) rfl
  · exact normalize_total_except_summary_fallback.2.1 (PyVal.pyobj "set()")
      (fun _ h => nomatch h)
  · exact normalize_total_except_summary_fallback.2.2.1
      [("message", PyVal.str "m"), ("x", PyVal.pyobj "set()")] "m" rfl (by decide)
  · exact normalize_total_except_summary_fallback.2.2.2.1
      [("title", PyVal.str "T"), ("x", PyVal.pyobj "set()")] "T" rfl
  · exact normalize_total_except_summary_fallback.2.2.2.2.1
      [("message", PyVal.str "m")] rfl
  · exact normalize_total_except_summary_fallback.2.2.2.2.2.1
      [("x", PyVal.pyobj "set()")] rfl
  · exact normalize_total_except_summary_fallback.2.2.2.2.2.2
      [PyVal.str "a", PyVal.null] (by decide)

theorem charListLe_total (as bs : List Char) :
    charListLe as bs = true ∨ charListLe bs as = true := by
  induction as generalizing bs with
  | nil => exact Or.inl rfl
  | cons a as ih =>
    cases bs with
    | nil => exact Or.inr rfl
    | cons b bs =>
      unfold charListLe
      rcases Nat.lt_trichotomy a.toNat b.toNat with h | h | h
      · left
        rw [if_pos h]
      · have hab : ¬ a.toNat < b.toNat := by omega
        have hba : ¬ b.toNat < a.toNat := by omega
        rcases ih bs with h2 | h2
        · left
          rw [if_neg hab, if_neg hba]
          exact h2
        · right
          rw [if_neg hba, if_neg hab]
          exact h2
      · right
        rw [if_pos h]

theorem charListLe_antisymm (as : List Char) : ∀ bs, charListLe as bs = true →
    charListLe bs as = true → as = bs := by
  induction as with
  | nil =>
    intro bs h1 h2
    cases bs with
    | nil => rfl
    | cons b bs => simp [charListLe] at h2
  | cons a as ih =>
    intro bs h1 h2
    cases bs with
    | nil => simp [charListLe] at h1
    | cons b bs =>
      unfold charListLe at h1 h2
      by_cases hab : a.toNat < b.toNat
      · have hba : ¬ b.toNat < a.toNat := by omega
        rw [if_neg hba, if_pos hab] at h2
        exact absurd h2 Bool.false_ne_true
      · by_cases hba : b.toNat < a.toNat
        · rw [if_neg hab, if_pos hba] at h1
          exact absurd h1 Bool.false_ne_true
        · rw [if_neg hab, if_neg hba] at h1
          rw [if_neg hba, if_neg hab] at h2
          have hn : a.toNat = b.toNat := by omega
          have heq : a = b := Char.ext (UInt32.ext hn)
          rw [heq, ih bs h1 h2]

theorem charListLe_trans (as : List Char) : ∀ bs cs, charListLe as bs = true →
    charListLe bs cs = true → charListLe as cs = true := by
  induction as with
  | nil => intro bs cs h1 h2; rfl
  | cons a as ih =>
    intro bs cs h1 h2
    cases bs with
    | nil => simp [charListLe] at h1
    | cons b bs =>
      cases cs with
      | nil => simp [charListLe] at h2
      | cons c cs =>
        unfold charListLe at h1 h2 ⊢
        by_cases hab : a.toNat < b.toNat
        · by_cases hbc : b.toNat < c.toNat
          · rw [if_pos (show a.toNat < c.toNat by omega)]
          · by_cases hcb : c.toNat < b.toNat
            · rw [if_neg hbc, if_pos hcb] at h2
              exact absurd h2 Bool.false_ne_true
            · rw [if_pos (show a.toNat < c.toNat by omega)]
        · by_cases hba : b.toNat < a.toNat
          · rw [if_neg hab, if_pos hba] at h1
            exact absurd h1 Bool.false_ne_true
          · rw [if_neg hab, if_neg hba] at h1
            by_cases hbc : b.toNat < c.toNat
            · rw [if_pos (show a.toNat < c.toNat by omega)]
            · by_cases hcb : c.toNat < b.toNat
              · rw [if_neg hbc, if_pos hcb] at h2
                exact absurd h2 Bool.false_ne_true
              · rw [if_neg hbc, if_neg hcb] at h2
                rw [if_neg (show ¬ a.toNat < c.toNat by omega),
                  if_neg (show ¬ c.toNat < a.toNat by omega)]
                exact ih bs cs h1 h2

theorem pyStrLe_total (s t : String) : pyStrLe s t = true ∨ pyStrLe t s = true :=
  charListLe_total s.data t.data

theorem pyStrLe_antisymm (s t : String) (h1 : pyStrLe s t = true)
    (h2 : pyStrLe t s = true) : s = t := by
  cases s with
  | mk d1 =>
    cases t with
    | mk d2 => exact congrArg String.mk (charListLe_antisymm d1 d2 h1 h2)

theorem pyStrLe_trans (s t u : String) (h1 : pyStrLe s t = true)
    (h2 : pyStrLe t u = true) : pyStrLe s u = true :=
  charListLe_trans s.data t.data u.data h1 h2

theorem insertPairByKey_perm (a : String × String) (l : List (String × String)) :
    List.Perm (insertPairByKey a l) (a :: l) := by
  induction l with
  | nil => exact List.Perm.refl _
  | cons b t ih =>
    unfold insertPairByKey
    by_cases h : pyStrLe a.1 b.1 = true
    · rw [if_pos h]
    · rw [if_neg h]
      exact (List.Perm.cons b ih).trans (List.Perm.swap a b t)

theorem sortPairsByKey_perm (l : List (String × String)) :
    List.Perm (sortPairsByKey l) l := by
  induction l with
  | nil => exact List.Perm.refl _
  | cons a t ih =>
    exact (insertPairByKey_perm a (sortPairsByKey t)).trans (List.Perm.cons a ih)

theorem insertPairByKey_sorted (a : String × String) (l : List (String × String))
    (h : KeySortedB l) : KeySortedB (insertPairByKey a l) := by
  induction l with
  | nil =>
    refine List.pairwise_cons.mpr ⟨?_, List.Pairwise.nil⟩
    intro b hb
    cases hb
  | cons b t ih =>
    rcases List.pairwise_cons.mp h with ⟨hb, ht⟩
    unfold insertPairByKey
    by_cases hab : pyStrLe a.1 b.1 = true
    · rw [if_pos hab]
      refine List.pairwise_cons.mpr ⟨?_, h⟩
      intro x hx
      rcases List.mem_cons.mp hx with rfl | hx2
      · exact hab
      · exact pyStrLe_trans a.1 b.1 x.1 hab (hb x hx2)
    · rw [if_neg hab]
      refine List.pairwise_cons.mpr ⟨?_, ih ht⟩
      intro x hx
      have hx2 := (insertPairByKey_perm a t).mem_iff.mp hx
      rcases List.mem_cons.mp hx2 with rfl | hx3
      · rcases pyStrLe_total x.1 b.1 with hc | hc
        · exact absurd hc hab
        · exact hc
      · exact hb x hx3

theorem sortPairsByKey_sorted (l : List (String × String)) :
    KeySortedB (sortPairsByKey l) := by
  induction l with
  | nil => exact List.Pairwise.nil
  | cons a t ih => exact insertPairByKey_sorted a (sortPairsByKey t) ih

theorem keySorted_perm_eq (l1 : List (String × String)) : ∀ l2,
    KeySortedB l1 → KeySortedB l2 → (l1.map Prod.fst).Nodup →
    List.Perm l1 l2 → l1 = l2 := by
  induction l1 with
  | nil =>
    intro l2 _ _ _ hp
    exact (List.perm_nil.mp hp.symm).symm
  | cons a t1 ih =>
    intro l2 h1 h2 hnd hp
    cases l2 with
    | nil => exact absurd (List.perm_nil.mp hp) (List.cons_ne_nil a t1)
    | cons b t2 =>
      rcases List.pairwise_cons.mp h1 with ⟨ha, ht1⟩
      rcases List.pairwise_cons.mp h2 with ⟨hbl, ht2⟩
      have hab : a = b := by
        have hamem : a ∈ b :: t2 := hp.mem_iff.mp (List.mem_cons_self a t1)
        have hbmem : b ∈ a :: t1 := hp.symm.mem_iff.mp (List.mem_cons_self b t2)
        rcases List.mem_cons.mp hamem with h | hain
        · exact h
        · rcases List.mem_cons.mp hbmem with h | hbin
          · exact h.symm
          · have h1le : pyStrLe a.1 b.1 = true := ha b hbin
            have h2le : pyStrLe b.1 a.1 = true := hbl a hain
            have hkey : a.1 = b.1 := pyStrLe_antisymm a.1 b.1 h1le h2le
            have hmap : a.1 ∈ t1.map Prod.fst :=
              List.mem_map.mpr ⟨b, hbin, hkey.symm⟩
            rw [List.map_cons] at hnd
            exact absurd hmap (List.nodup_cons.mp hnd).1
      subst hab
      have hndt : (t1.map Prod.fst).Nodup := by
        rw [List.map_cons] at hnd
        exact (List.nodup_cons.mp hnd).2
      rw [ih t2 ht1 ht2 hndt hp.cons_inv]

theorem dumpsEntries_fst (isep ksep : String) (kvs : List (String × PyVal)) :
    ∀ ps, dumpsEntries isep ksep kvs = some ps →
      ps.map Prod.fst = kvs.map Prod.fst := by
  induction kvs with
  | nil =>
    intro ps hps
    simp only [dumpsEntries, Option.some.injEq] at hps
    subst hps
    rfl
  | cons kv rest ih =>
    obtain ⟨k, v⟩ := kv
    intro ps hps
    cases hdv : dumpsVal isep ksep v with
    | none => simp [dumpsEntries, hdv] at hps
    | some s =>
      cases hde : dumpsEntries isep ksep rest with
      | none => simp [dumpsEntries, hdv, hde] at hps
      | some rest2 =>
        simp only [dumpsEntries, hdv, hde, Option.some.injEq] at hps
        subst hps
        rw [List.map_cons, List.map_cons, ih rest2 hde]

theorem dumpsEntries_perm (isep ksep : String) {kvs1 kvs2 : List (String × PyVal)}
    (hp : List.Perm kvs1 kvs2) : ∀ ps1, dumpsEntries isep ksep kvs1 = some ps1 →
    ∃ ps2, dumpsEntries isep ksep kvs2 = some ps2 ∧ List.Perm ps1 ps2 := by
  induction hp with
  | nil =>
    intro ps1 h
    exact ⟨ps1, h, List.Perm.refl _⟩
  | @cons x l1 l2 hper ih =>
    obtain ⟨k, v⟩ := x
    intro ps1 h
    cases hdv : dumpsVal isep ksep v with
    | none => simp [dumpsEntries, hdv] at h
    | some s =>
      cases hde : dumpsEntries isep ksep l1 with
      | none => simp [dumpsEntries, hdv, hde] at h
      | some psl =>
        simp only [dumpsEntries, hdv, hde, Option.some.injEq] at h
        subst h
        obtain ⟨ps2, he2, hpp⟩ := ih psl hde
        refine ⟨(k, s) :: ps2, ?_, List.Perm.cons (k, s) hpp⟩
        simp only [dumpsEntries, hdv, he2]
  | swap x y l =>
    obtain ⟨kx, vx⟩ := x
    obtain ⟨ky, vy⟩ := y
    intro ps1 h
    cases hdy : dumpsVal isep ksep vy with
    | none => simp [dumpsEntries, hdy] at h
    | some sy =>
      cases hdx : dumpsVal isep ksep vx with
      | none => simp [dumpsEntries, hdy, hdx] at h
      | some sx =>
        cases hdl : dumpsEntries isep ksep l with
        | none => simp [dumpsEntries, hdy, hdx, hdl] at h
        | some psl =>
          simp only [dumpsEntries, hdy, hdx, hdl, Option.some.injEq] at h
          subst h
          refine ⟨(kx, sx) :: (ky, sy) :: psl, ?_, ?_⟩
          · simp only [dumpsEntries, hdy, hdx, hdl]
          · exact List.Perm.swap (kx, sx) (ky, sy) psl
  | trans hp1 hp2 ih1 ih2 =>
    intro ps1 h
    obtain ⟨ps2, h2e, hp12⟩ := ih1 ps1 h
    obtain ⟨ps3, h3e, hp23⟩ := ih2 ps2 h2e
    exact ⟨ps3, h3e, hp12.trans hp23⟩

theorem dumpsVal_dict_perm (isep ksep : String) (kvs1 kvs2 : List (String × PyVal))
    (hnd : (kvs1.map Prod.fst).Nodup) (hp : List.Perm kvs1 kvs2)
    (hsome : (dumpsVal isep ksep (PyVal.dict kvs1)).isSome = true) :
    dumpsVal isep ksep (PyVal.dict kvs1) = dumpsVal isep ksep (PyVal.dict kvs2) := by
  cases he1 : dumpsEntries isep ksep kvs1 with
  | none => simp [dumpsVal, he1] at hsome
  | some ps1 =>
    obtain ⟨ps2, he2, hperm⟩ := dumpsEntries_perm isep ksep hp ps1 he1
    have hfst1 := dumpsEntries_fst isep ksep kvs1 ps1 he1
    have hnd1 : (ps1.map Prod.fst).Nodup := by
      rw [hfst1]
      exact hnd
    have hndsort : ((sortPairsByKey ps1).map Prod.fst).Nodup :=
      (List.Perm.map Prod.fst (sortPairsByKey_perm ps1)).symm.nodup hnd1
    have hsort_eq : sortPairsByKey ps1 = sortPairsByKey ps2 := by
      apply keySorted_perm_eq (sortPairsByKey ps1) (sortPairsByKey ps2)
        (sortPairsByKey_sorted ps1) (sortPairsByKey_sorted ps2) hndsort
      exact (sortPairsByKey_perm ps1).trans
        (hperm.trans (sortPairsByKey_perm ps2).symm)
    simp only [dumpsVal, he1, he2, hsort_eq]

/-- C3: the issue id is a pure function of content: equal identity inputs
(the canonical serialization, or the string itself for a string) give equal
ids; an object's id is invariant under reordering its keys; and every
normalized record carries exactly the content-derived id and summary of its
raw issue, independent of its position in the list. The embedding is a pure
function of the raw value alone, so two applications to the same value are
the same term: idempotence and independence from time hold by
construction. -/
theorem issue_identity_content_determined :
    (∀ r1 r2, identityInput r1 = identityInput r2 →
      _issue_identity r1 = _issue_identity r2) ∧
    (∀ kvs1 kvs2, (kvs1.map Prod.fst).Nodup →
      (dumpsVal "," ":" (PyVal.dict kvs1)).isSome = true → List.Perm kvs1 kvs2 →
      _issue_identity (PyVal.dict kvs1) = _issue_identity (PyVal.dict kvs2)) ∧
    (∀ issues ns, _normalize_issues issues = some ns →
      ns.map NormalizedIssue.id = issues.map _issue_identity ∧
      ns.map (fun n => some n.summary) = issues.map _issue_summary) := by
  refine ⟨?_, ?_, ?_⟩
  · intro r1 r2 h
    unfold _issue_identity
    rw [h]
  · intro kvs1 kvs2 hnd hsome hp
    have hd := dumpsVal_dict_perm "," ":" kvs1 kvs2 hnd hp hsome
    cases hv : dumpsVal "," ":" (PyVal.dict kvs1) with
    | none => simp [hv] at hsome
    | some value =>
      have hv2 : dumpsVal "," ":" (PyVal.dict kvs2) = some value := by
        rw [← hd, hv]
      unfold _issue_identity identityInput
      rw [hv, hv2]
  · intro issues
    induction issues with
    | nil =>
      intro ns h
      simp only [_normalize_issues, Option.some.injEq] at h
      subst h
      exact ⟨rfl, rfl⟩
    | cons issue rest ih =>
      intro ns h
      cases hs : _issue_summary issue with
      | none => simp [_normalize_issues, hs] at h
      | some s =>
        cases hr : _normalize_issues rest with
        | none => simp [_normalize_issues, hs, hr] at h
        | some ns2 =>
          simp only [_normalize_issues, hs, hr, Option.some.injEq] at h
          subst h
          obtain ⟨h1, h2⟩ := ih ns2 hr
          constructor
          · rw [List.map_cons, List.map_cons, h1]
          · rw [List.map_cons, List.map_cons, h2, hs]

/-- C3 witness: two structurally equal two-key objects with keys in swapped
insertion order hash to the same id. -/
theorem issue_identity_content_determined_witness :
    identityInput (PyVal.dict [("b", PyVal.null), ("a", PyVal.int 1)]) =
      identityInput (PyVal.dict [("a", PyVal.int 1), ("b", PyVal.null)]) ∧
    _issue_identity (PyVal.dict [("b", PyVal.null), ("a", PyVal.int 1)]) =
      _issue_identity (PyVal.dict [("a", PyVal.int 1), ("b", PyVal.null)]) := by
  constructor
  · decide
  · exact issue_identity_content_determined.2.1
      [("b", PyVal.null), ("a", PyVal.int 1)]
      [("a", PyVal.int 1), ("b", PyVal.null)]
      (by decide) (by decide)
      (List.Perm.swap ("a", PyVal.int 1) ("b", PyVal.null) [])
